import Mathlib

/-!
Verification of the guns.lol username checker (src/main.py).

The Python source is shallowly embedded: pure functions become Lean
functions, the stateful retry/batch loops become explicit recursion with
the global shutdown event modelled as a boolean-valued function of the
check point (how many loop boundaries have been passed), and the
network / random-number / HTML-parsing collaborators become oracle
parameters constrained by hypotheses.  Machine floats (the retry delay)
are modelled as rationals; the wall-clock `timestamp` field of `Result`
is omitted because it is pure real time.
-/

/-- `Status` enumeration from main.py. -/
inductive Status where
  | BANNED
  | AVAILABLE
  | TAKEN
deriving DecidableEq, Repr

/-- `Result` record from main.py (the wall-clock `timestamp` field is
omitted from the model). -/
structure Result where
  username : String
  status : Status
deriving DecidableEq, Repr

deriving instance DecidableEq for Except

/-- Python's `pat in s` substring test on strings. -/
def strContains (s pat : String) : Bool :=
  (List.range (s.data.length + 1)).any fun i => List.isPrefixOf pat.data (s.data.drop i)

/-- Abstraction of the BeautifulSoup view of a fetched body used by
`Checker.parse`: the stripped text of the first `h1` element (if any)
and of the first `h3` element (if any). -/
structure Page where
  h1 : Option String
  h3 : Option String
deriving DecidableEq, Repr

/-- `Checker.BAN` from main.py. -/
def Checker.BAN : String := "This user has been banned from"

/-- `Checker.AVAILABLE` from main.py. -/
def Checker.AVAILABLE : String := "Username not found"

/-- The `h3` marker literal inside `Checker.parse`. -/
def Checker.CLAIM_H3 : String := "Claim this username"

/-- `Checker.parse` from main.py, over the `Page` abstraction of the
parsed body. -/
def Checker.parse (p : Page) : Status :=
  match p.h1 with
  | none => Status.TAKEN
  | some h1 =>
    if strContains h1 Checker.BAN then Status.BANNED
    else if strContains h1 Checker.AVAILABLE then
      match p.h3 with
      | some h3 =>
        if strContains h3 Checker.CLAIM_H3 then Status.AVAILABLE else Status.TAKEN
      | none => Status.TAKEN
    else Status.TAKEN

/-- Trace of one `Checker.fetch` call: the outcome (`Except.ok body`
for a successful GET, `Except.ok ""` when the loop exits because of
shutdown or `retries = 0`, `Except.error ()` when the final attempt
fails and the exception propagates), the number of GET attempts made,
and the list of back-off sleep durations in order. -/
structure FetchTrace where
  result : Except Unit String
  attempts : Nat
  sleeps : List ℚ
deriving DecidableEq, Repr

/-- Loop body of `Checker.fetch` from main.py.  `fuel` equals
`retries - attempt` so the guard `attempt < retries` holds exactly when
`fuel > 0`; `shutdown n` is the value the global `_shutdown` event
would show at the loop check after `n` completed attempts; `get a` is
the outcome of the `a`-th (1-based) GET attempt, `none` meaning a
transport / HTTP-status failure. -/
def Checker.fetchGo (retries : Nat) (delay : ℚ) (shutdown : Nat → Bool)
    (get : Nat → Option String) : Nat → Nat → FetchTrace
  | 0, _ => ⟨Except.ok "", 0, []⟩
  | fuel + 1, attempt =>
    if shutdown attempt then ⟨Except.ok "", 0, []⟩
    else
      match get (attempt + 1) with
      | some body => ⟨Except.ok body, 1, []⟩
      | none =>
        if attempt + 1 ≥ retries then ⟨Except.error (), 1, []⟩
        else
          let t := Checker.fetchGo retries delay shutdown get fuel (attempt + 1)
          ⟨t.result, t.attempts + 1, delay * (attempt + 1) :: t.sleeps⟩

/-- `Checker.fetch` from main.py. -/
def Checker.fetch (retries : Nat) (delay : ℚ) (shutdown : Nat → Bool)
    (get : Nat → Option String) : FetchTrace :=
  Checker.fetchGo retries delay shutdown get retries 0

/-- `Checker.check` from main.py: fetch, then classify the body via the
BeautifulSoup abstraction `pageOf`.  A terminal fetch failure
propagates as `Except.error`. -/
def Checker.check (retries : Nat) (delay : ℚ) (shutdown : Nat → Bool)
    (get : Nat → Option String) (pageOf : String → Page) (u : String) :
    Except Unit Result :=
  match (Checker.fetch retries delay shutdown get).result with
  | Except.error e => Except.error e
  | Except.ok html => Except.ok ⟨u, Checker.parse (pageOf html)⟩

/-- The scripted outcome of `Checker.check` for one username in the
batch loop: a successful check returning a status, a terminal
exception, or a `KeyboardInterrupt`. -/
inductive Outcome where
  | ok (st : Status)
  | exn
  | intr
deriving DecidableEq, Repr

/-- The `Result` the batch loop records for one processed item:
`check`'s own result on success, the synthetic `TAKEN` result on a
terminal exception. -/
def stepResult : String × Outcome → Result
  | (u, Outcome.ok st) => ⟨u, st⟩
  | (u, _) => ⟨u, Status.TAKEN⟩

/-- Loop of `Checker.batch` from main.py.  `i` counts usernames whose
iteration has completed; `shutdown i` is the `_shutdown` value at the
top-of-loop check before item `i`.  Returns the collected results and
the number of `progress.advance` calls. -/
def Checker.batchGo (shutdown : Nat → Bool) :
    Nat → List (String × Outcome) → List Result × Nat
  | _, [] => ([], 0)
  | i, (u, o) :: rest =>
    if shutdown i then ([], 0)
    else
      match o with
      | Outcome.ok st =>
        let r := Checker.batchGo shutdown (i + 1) rest
        (⟨u, st⟩ :: r.1, r.2 + 1)
      | Outcome.exn =>
        let r := Checker.batchGo shutdown (i + 1) rest
        (⟨u, Status.TAKEN⟩ :: r.1, r.2 + 1)
      | Outcome.intr => ([], 1)

/-- `Checker.batch` from main.py (results list, progress advances). -/
def Checker.batch (shutdown : Nat → Bool) (items : List (String × Outcome)) :
    List Result × Nat :=
  Checker.batchGo shutdown 0 items

/-- `string.ascii_lowercase`. -/
def asciiLowercase : List Char := "abcdefghijklmnopqrstuvwxyz".data

/-- `string.digits`. -/
def asciiDigits : List Char := "0123456789".data

/-- `Generator.__init__`'s charset:
`string.ascii_lowercase + (string.digits if digits else "")`. -/
def charset (digits : Bool) : List Char :=
  asciiLowercase ++ if digits then asciiDigits else []

/-- The `count` field of the generation config block: a JSON integer or
the literal string `"max"`. -/
inductive CountCfg where
  | num (n : Nat)
  | maxSentinel
deriving DecidableEq, Repr

/-- `Generator.__init__`'s count resolution
`0 if cnt == "max" and self.max_len <= 4 else int(cnt)`: `int("max")`
raises `ValueError`, modelled as `Except.error ()`. -/
def Generator.resolveCount : CountCfg → Nat → Except Unit Nat
  | CountCfg.num n, _ => Except.ok n
  | CountCfg.maxSentinel, maxLen =>
    if maxLen ≤ 4 then Except.ok 0 else Except.error ()

/-- `xs.flatMap f`, written out structurally. -/
def flatMapL {α β : Type} : List α → (α → List β) → List β
  | [], _ => []
  | a :: as, f => f a ++ flatMapL as f

/-- `itertools.product(cs, repeat=n)` as lists of characters, in
product order (first coordinate varies slowest, coordinates drawn in
`cs` order). -/
def tuples (cs : List Char) : Nat → List (List Char)
  | 0 => [[]]
  | n + 1 => flatMapL cs fun c => (tuples cs n).map fun t => c :: t

/-- `range(min_len, max_len + 1)`. -/
def lenRange (minLen maxLen : Nat) : List Nat :=
  List.range' minLen (maxLen + 1 - minLen)

/-- `Generator._all` from main.py: every `"".join(combo)` for each
length in `range(min_len, max_len + 1)` and each product combination. -/
def Generator.allStrings (cs : List Char) (minLen maxLen : Nat) : List String :=
  (flatMapL (lenRange minLen maxLen) (tuples cs)).map String.mk

/-- `Generator._random` from main.py with the random source as
oracles: `randint i` is the value `random.randint(min_len, max_len)`
returns on iteration `i`, and `pick i j` is the `j`-th character
`random.choices(charset, k=...)` draws on iteration `i`. -/
def Generator.randomStrings (randint : Nat → Nat) (pick : Nat → Nat → Char)
    (count : Nat) : List String :=
  (List.range count).map fun i => String.mk ((List.range (randint i)).map (pick i))

/-- `Generator.generate` from main.py:
`self._all() if self.count == 0 else self._random(self.count)`. -/
def Generator.generate (cs : List Char) (minLen maxLen : Nat)
    (randint : Nat → Nat) (pick : Nat → Nat → Char) (count : Nat) : List String :=
  if count = 0 then Generator.allStrings cs minLen maxLen
  else Generator.randomStrings randint pick count

/-- Python `str.strip()` whitespace set. -/
def isPyWs (c : Char) : Bool :=
  c == ' ' || c == '\t' || c == '\n' || c == '\r' || c == '\x0b' || c == '\x0c'

/-- Python `str.strip()` (ASCII whitespace model). -/
def pyStrip (s : String) : String :=
  String.mk (((s.data.dropWhile isPyWs).reverse.dropWhile isPyWs).reverse)

/-- `\w` character class (ASCII model). -/
def isWordChar (c : Char) : Bool := c.isAlpha || c.isDigit || c == '_'

/-- Python truthiness of a string: non-emptiness. -/
def strIsEmpty (s : String) : Bool := s.data.isEmpty

/-- Python `line.startswith("#")`: the first character is `#`. -/
def startsWithHash (s : String) : Bool := s.data.head? == some '#'

/-- All ways to split a list into two consecutive parts. -/
def splits {α : Type} (l : List α) : List (List α × List α) :=
  (List.range (l.length + 1)).map fun i => (l.take i, l.drop i)

/-- Matcher for the tail `[^:@]+:\d+` of `ProxyPool._regex`. -/
def hostPortMatch (l : List Char) : Bool :=
  (splits l).any fun pr =>
    match pr with
    | (h, ':' :: ds) =>
      !h.isEmpty && h.all (fun c => !(c == ':') && !(c == '@')) &&
        !ds.isEmpty && ds.all Char.isDigit
    | _ => false

/-- Matcher for `[^:@]+:[^@]+` (the user:pass part of
`ProxyPool._regex`). -/
def userPassMatch (l : List Char) : Bool :=
  (splits l).any fun pr =>
    match pr with
    | (u, ':' :: p) =>
      !u.isEmpty && u.all (fun c => !(c == ':') && !(c == '@')) &&
        !p.isEmpty && p.all (fun c => !(c == '@'))
    | _ => false

/-- Matcher for `(?:[^:@]+:[^@]+@)?[^:@]+:\d+`. -/
def authHostMatch (l : List Char) : Bool :=
  hostPortMatch l ||
    (splits l).any fun pr =>
      match pr with
      | (up, '@' :: rest) => userPassMatch up && hostPortMatch rest
      | _ => false

/-- `ProxyPool._regex.match` on a stripped line: language membership in
`^(?:\w+:\/\/)?(?:[^:@]+:[^@]+@)?[^:@]+:\d+$` (`\w` and `\d` taken as
their ASCII classes). -/
def ProxyPool.regexMatch (s : String) : Bool :=
  authHostMatch s.data ||
    (splits s.data).any fun pr =>
      match pr with
      | (w, ':' :: '/' :: '/' :: rest) =>
        !w.isEmpty && w.all isWordChar && authHostMatch rest
      | _ => false

/-- Body of `ProxyPool._load`'s line loop: strip each line, keep it
when it is non-empty, does not start with `#` and matches the regex. -/
def ProxyPool.loadLines : List String → List String
  | [] => []
  | ln :: rest =>
    let l := pyStrip ln
    if strIsEmpty l then ProxyPool.loadLines rest
    else if startsWithHash l then ProxyPool.loadLines rest
    else if ProxyPool.regexMatch l then l :: ProxyPool.loadLines rest
    else ProxyPool.loadLines rest

/-- `ProxyPool._load` from main.py: `none` models a missing file
(`FileNotFoundError` is swallowed and the pool stays empty). -/
def ProxyPool.loadSrc : Option (List String) → List String
  | none => []
  | some lines => ProxyPool.loadLines lines

/-- The retained-line predicate of `ProxyPool._load`, on a stripped
line. -/
def ProxyPool.keepLine (l : String) : Bool :=
  !strIsEmpty l && !startsWithHash l && ProxyPool.regexMatch l

/-- `ProxyPool` state: the retained raw proxy lines and the rotation
cursor. -/
structure ProxyPool where
  raw : List String
  idx : Nat
deriving DecidableEq, Repr

/-- `ProxyPool.__init__` from main.py. -/
def ProxyPool.mk' (src : Option (List String)) : ProxyPool :=
  ⟨ProxyPool.loadSrc src, 0⟩

/-- `ProxyPool._fmt` from main.py: the `http` / `https` endpoint pair. -/
def ProxyPool.fmt (proxy : String) : String × String :=
  if strContains proxy "://" then (proxy, proxy)
  else ("http://" ++ proxy, "http://" ++ proxy)

/-- `ProxyPool.next` from main.py: on a non-empty pool it first
advances the cursor modulo the pool size, then returns the formatted
entry at the new cursor. -/
def ProxyPool.next (p : ProxyPool) : Option (String × String) × ProxyPool :=
  if h : p.raw.length = 0 then (none, p)
  else
    let i := (p.idx + 1) % p.raw.length
    (some (ProxyPool.fmt (p.raw.get ⟨i, Nat.mod_lt _ (Nat.pos_of_ne_zero h)⟩)),
      ⟨p.raw, i⟩)

/-- `ProxyPool.count` from main.py. -/
def ProxyPool.count (p : ProxyPool) : Nat := p.raw.length

/-- `m` successive `ProxyPool.next` calls, collecting the returned
values. -/
def ProxyPool.nextN : ProxyPool → Nat → List (Option (String × String)) × ProxyPool
  | p, 0 => ([], p)
  | p, m + 1 =>
    let r := p.next
    let s := ProxyPool.nextN r.2 m
    (r.1 :: s.1, s.2)

/-! ## Helper lemmas -/

lemma stepResult_username (p : String × Outcome) : (stepResult p).username = p.1 := by
  obtain ⟨u, o⟩ := p
  cases o <;> rfl

lemma batchGo_no_shutdown (shutdown : Nat → Bool) (hs : ∀ j, shutdown j = false) :
    ∀ (items : List (String × Outcome)), (∀ p ∈ items, p.2 ≠ Outcome.intr) →
      ∀ i, Checker.batchGo shutdown i items = (items.map stepResult, items.length) := by
  intro items
  induction items with
  | nil => intro _ i; rfl
  | cons hd tl ih =>
    intro hni i
    obtain ⟨u, o⟩ := hd
    have htl : ∀ p ∈ tl, p.2 ≠ Outcome.intr := fun p hp => hni p (List.mem_cons_of_mem _ hp)
    cases o with
    | ok st =>
      simp [Checker.batchGo, hs i, ih htl (i + 1), stepResult]
    | exn =>
      simp [Checker.batchGo, hs i, ih htl (i + 1), stepResult]
    | intr =>
      exact absurd rfl (hni (u, Outcome.intr) (List.mem_cons_self _ _))

lemma batchGo_cutoff (k : Nat) :
    ∀ (items : List (String × Outcome)), (∀ p ∈ items, p.2 ≠ Outcome.intr) →
      ∀ i, Checker.batchGo (fun j => decide (k ≤ j)) i items =
        ((items.take (k - i)).map stepResult, min (k - i) items.length) := by
  intro items
  induction items with
  | nil => intro _ i; simp [Checker.batchGo]
  | cons hd tl ih =>
    intro hni i
    obtain ⟨u, o⟩ := hd
    have htl : ∀ p ∈ tl, p.2 ≠ Outcome.intr := fun p hp => hni p (List.mem_cons_of_mem _ hp)
    by_cases hk : k ≤ i
    · have h0 : k - i = 0 := Nat.sub_eq_zero_of_le hk
      simp [Checker.batchGo, hk, h0]
    · have hik : i < k := Nat.lt_of_not_le hk
      have hsub : k - i = (k - (i + 1)) + 1 := by omega
      cases o with
      | ok st =>
        simp only [Checker.batchGo, decide_eq_true_eq, if_neg hk, ih htl (i + 1), hsub,
          List.take_succ_cons, List.map_cons, stepResult, Prod.mk.injEq,
          List.length_cons, true_and, and_true]
        omega
      | exn =>
        simp only [Checker.batchGo, decide_eq_true_eq, if_neg hk, ih htl (i + 1), hsub,
          List.take_succ_cons, List.map_cons, stepResult, Prod.mk.injEq,
          List.length_cons, true_and, and_true]
        omega
      | intr =>
        exact absurd rfl (hni (u, Outcome.intr) (List.mem_cons_self _ _))

lemma fetchGo_all_fail (retries : Nat) (delay : ℚ) (shutdown : Nat → Bool)
    (get : Nat → Option String) (hs : ∀ i, shutdown i = false)
    (hg : ∀ a, get a = none) :
    ∀ fuel attempt, fuel ≠ 0 → fuel + attempt = retries →
      Checker.fetchGo retries delay shutdown get fuel attempt =
        ⟨Except.error (), fuel,
          (List.range (fuel - 1)).map fun i => delay * ((attempt + i + 1 : Nat) : ℚ)⟩ := by
  intro fuel
  induction fuel with
  | zero => intro _ h; exact absurd rfl h
  | succ f ihf =>
    intro attempt _ hsum
    by_cases hf : f = 0
    · subst hf
      have hge : attempt + 1 ≥ retries := by omega
      simp [Checker.fetchGo, hs attempt, hg (attempt + 1), hge]
    · have hlt : ¬attempt + 1 ≥ retries := by omega
      have ih := ihf (attempt + 1) hf (by omega)
      have hf1 : f = (f - 1) + 1 := by omega
      simp only [Checker.fetchGo, hs attempt, Bool.false_eq_true, ite_false,
        hg (attempt + 1), if_neg hlt, ih, FetchTrace.mk.injEq, true_and, and_true,
        Nat.add_sub_cancel]
      rw [hf1, List.range_succ_eq_map]
      simp only [List.map_cons, List.map_map, List.cons.injEq, Nat.add_sub_cancel]
      refine ⟨by push_cast; ring, ?_⟩
      apply List.map_congr_left
      intro i _
      simp only [Function.comp_apply]
      push_cast
      ring

lemma fetchGo_shutdown_cut (retries : Nat) (delay : ℚ) (shutdown : Nat → Bool)
    (get : Nat → Option String) :
    ∀ m attempt, attempt + m < retries → shutdown (attempt + m) = true →
      (∀ i, attempt ≤ i → i < attempt + m → shutdown i = false) →
      (∀ a, a ≤ attempt + m → get a = none) →
      (Checker.fetchGo retries delay shutdown get (retries - attempt) attempt).result =
        Except.ok "" := by
  intro m
  induction m with
  | zero =>
    intro attempt hlt hsd _ _
    have hfuel : retries - attempt = (retries - attempt - 1) + 1 := by omega
    rw [hfuel]
    simp only [Nat.add_zero] at hsd
    simp [Checker.fetchGo, hsd]
  | succ m ihm =>
    intro attempt hlt hsd hbefore hget
    have hfuel : retries - attempt = (retries - (attempt + 1)) + 1 := by omega
    have hs0 : shutdown attempt = false := hbefore attempt (Nat.le_refl _) (by omega)
    have hg0 : get (attempt + 1) = none := hget (attempt + 1) (by omega)
    have hlt1 : ¬attempt + 1 ≥ retries := by omega
    rw [hfuel]
    simp only [Checker.fetchGo, hs0, Bool.false_eq_true, ite_false, hg0, if_neg hlt1]
    exact ihm (attempt + 1) (by omega) (by rw [show attempt + 1 + m = attempt + (m + 1) by omega]; exact hsd)
      (fun i h1 h2 => hbefore i (by omega) (by omega))
      (fun a ha => hget a (by omega))

/-! ## Claims about classification, fetch and batch -/

/-- Claim C1: for every body, `Checker.parse` returns `TAKEN` when no
`h1` heading exists; otherwise `BANNED` when the `h1` text contains the
ban phrase; otherwise `AVAILABLE` when the `h1` text contains
"Username not found" and an `h3` heading containing
"Claim this username" is present; and `TAKEN` in every other case, so
`parse` is total over the three `Status` values. -/
theorem parse_classification (p : Page) :
    (p.h1 = none → Checker.parse p = Status.TAKEN) ∧
    (∀ t, p.h1 = some t → strContains t Checker.BAN = true →
      Checker.parse p = Status.BANNED) ∧
    (∀ t, p.h1 = some t → strContains t Checker.BAN = false →
      strContains t Checker.AVAILABLE = true →
      (∃ u, p.h3 = some u ∧ strContains u Checker.CLAIM_H3 = true) →
      Checker.parse p = Status.AVAILABLE) ∧
    (∀ t, p.h1 = some t → strContains t Checker.BAN = false →
      (strContains t Checker.AVAILABLE = false ∨
        ∀ u, p.h3 = some u → strContains u Checker.CLAIM_H3 = false) →
      Checker.parse p = Status.TAKEN) ∧
    (Checker.parse p = Status.BANNED ∨ Checker.parse p = Status.AVAILABLE ∨
      Checker.parse p = Status.TAKEN) := by
  obtain ⟨h1, h3⟩ := p
  cases h1 with
  | none =>
    refine ⟨fun _ => rfl, ?_, ?_, ?_, Or.inr (Or.inr rfl)⟩ <;>
      · intro t ht
        simp at ht
  | some t0 =>
    refine ⟨?_, ?_, ?_, ?_, ?_⟩
    · intro h
      simp at h
    · intro t ht hb
      injection ht with h
      subst h
      simp [Checker.parse, hb]
    · intro t ht hb ha hex
      obtain ⟨u, hu, hc⟩ := hex
      injection ht with h
      subst h
      subst hu
      simp [Checker.parse, hb, ha, hc]
    · intro t ht hb hcase
      injection ht with h
      subst h
      cases hcase with
      | inl hna => simp [Checker.parse, hb, hna]
      | inr hall =>
        cases h3 with
        | none =>
          cases ha : strContains t0 Checker.AVAILABLE <;>
            simp [Checker.parse, hb, ha]
        | some u =>
          cases ha : strContains t0 Checker.AVAILABLE <;>
            simp [Checker.parse, hb, ha, hall u rfl]
    · cases hb : strContains t0 Checker.BAN
      · cases ha : strContains t0 Checker.AVAILABLE
        · simp [Checker.parse, hb, ha]
        · cases h3 with
          | none => simp [Checker.parse, hb, ha]
          | some u =>
            cases hc : strContains u Checker.CLAIM_H3 <;>
              simp [Checker.parse, hb, ha, hc]
      · simp [Checker.parse, hb]

/-- Concrete instance of `parse_classification`: the empty page is
`TAKEN` and a "Username not found" page with a claimable `h3` is
`AVAILABLE`. -/
theorem parse_classification_witness :
    Checker.parse ⟨none, none⟩ = Status.TAKEN ∧
    Checker.parse ⟨some "Username not found", some "Claim this username"⟩ =
      Status.AVAILABLE :=
  ⟨(parse_classification ⟨none, none⟩).1 rfl,
    (parse_classification ⟨some "Username not found", some "Claim this username"⟩).2.2.1
      "Username not found" rfl (by decide) (by decide)
      ⟨"Claim this username", rfl, by decide⟩⟩

/-- Claim C2: with the shutdown flag never set and no interrupt, the
batch yields exactly one `Result` per input username, in input order,
with matching username; a terminal check exception yields a synthetic
`TAKEN` result for that username instead of aborting; the progress
indicator advances exactly once per username. -/
theorem batch_one_result_per_input (shutdown : Nat → Bool)
    (items : List (String × Outcome))
    (hs : ∀ i, shutdown i = false)
    (hni : ∀ p ∈ items, p.2 ≠ Outcome.intr) :
    (Checker.batch shutdown items).1 = items.map stepResult ∧
    (Checker.batch shutdown items).1.map Result.username = items.map Prod.fst ∧
    (∀ u, (u, Outcome.exn) ∈ items →
      (⟨u, Status.TAKEN⟩ : Result) ∈ (Checker.batch shutdown items).1) ∧
    (Checker.batch shutdown items).2 = items.length := by
  have h := batchGo_no_shutdown shutdown hs items hni 0
  refine ⟨?_, ?_, ?_, ?_⟩
  · rw [Checker.batch, h]
  · rw [Checker.batch, h, List.map_map]
    exact List.map_congr_left fun p _ => stepResult_username p
  · intro u hu
    rw [Checker.batch, h]
    exact List.mem_map_of_mem stepResult hu
  · rw [Checker.batch, h]

/-- Concrete instance of `batch_one_result_per_input` on a three-item
batch whose middle check raises. -/
theorem batch_one_result_per_input_witness :
    (Checker.batch (fun _ => false)
        [("a", Outcome.ok Status.AVAILABLE), ("b", Outcome.exn),
          ("c", Outcome.ok Status.TAKEN)]).1 =
      [⟨"a", Status.AVAILABLE⟩, ⟨"b", Status.TAKEN⟩, ⟨"c", Status.TAKEN⟩] ∧
    (Checker.batch (fun _ => false)
        [("a", Outcome.ok Status.AVAILABLE), ("b", Outcome.exn),
          ("c", Outcome.ok Status.TAKEN)]).2 = 3 :=
  ⟨(batch_one_result_per_input (fun _ => false) _ (fun _ => rfl) (by decide)).1,
    (batch_one_result_per_input (fun _ => false) _ (fun _ => rfl) (by decide)).2.2.2⟩

/-- Claim C3: with `retries = 3` and every GET attempt failing (and no
shutdown), `fetch` makes exactly 3 attempts, sleeping `delay * 1` then
`delay * 2` between them, and the third failure propagates. -/
theorem fetch_three_attempts_linear_backoff (delay : ℚ) (shutdown : Nat → Bool)
    (get : Nat → Option String) (hs : ∀ i, shutdown i = false)
    (hg : ∀ a, get a = none) :
    Checker.fetch 3 delay shutdown get =
      ⟨Except.error (), 3, [delay * 1, delay * 2]⟩ := by
  have h := fetchGo_all_fail 3 delay shutdown get hs hg 3 0 (by omega) (by omega)
  rw [Checker.fetch, h]
  norm_num [List.range_succ]

/-- Concrete instance of `fetch_three_attempts_linear_backoff` with
`delay = 1`. -/
theorem fetch_three_attempts_linear_backoff_witness :
    Checker.fetch 3 1 (fun _ => false) (fun _ => none) =
      ⟨Except.error (), 3, [1 * 1, 1 * 2]⟩ :=
  fetch_three_attempts_linear_backoff 1 _ _ (fun _ => rfl) (fun _ => rfl)

/-- Claim C4: if the shutdown flag becomes set at the top-of-loop check
after `k` usernames are processed, the batch returns exactly the
results of the first `k` usernames (zero when set before the run), the
progress counter shows `min k n` iterations (so no later username is
fetched), and the returned list is the length-`k` front of the
uninterrupted run's results. -/
theorem batch_shutdown_cut (items : List (String × Outcome)) (k : Nat)
    (hni : ∀ p ∈ items, p.2 ≠ Outcome.intr) :
    (Checker.batch (fun j => decide (k ≤ j)) items).1 =
      (items.take k).map stepResult ∧
    (Checker.batch (fun j => decide (k ≤ j)) items).2 = min k items.length ∧
    (Checker.batch (fun j => decide (k ≤ j)) items).1 =
      ((Checker.batch (fun _ => false) items).1).take k := by
  have h := batchGo_cutoff k items hni 0
  have h0 := batchGo_no_shutdown (fun _ => false) (fun _ => rfl) items hni 0
  refine ⟨?_, ?_, ?_⟩
  · rw [Checker.batch, h]
    simp
  · rw [Checker.batch, h]
    simp
  · rw [Checker.batch, Checker.batch, h, h0]
    simp [List.map_take]

/-- Concrete instance of `batch_shutdown_cut`: shutdown after the 2nd
of 3 usernames yields exactly the first 2 results. -/
theorem batch_shutdown_cut_witness :
    (Checker.batch (fun j => decide (2 ≤ j))
        [("a", Outcome.ok Status.AVAILABLE), ("b", Outcome.exn),
          ("c", Outcome.ok Status.TAKEN)]).1 =
      ([("a", Outcome.ok Status.AVAILABLE), ("b", Outcome.exn),
          ("c", Outcome.ok Status.TAKEN)].take 2).map stepResult :=
  (batch_shutdown_cut _ 2 (by decide)).1

/-- Claim C7 counterexample: with the `"max"` sentinel and
`max_len = 5 > 4`, count resolution raises (`int("max")` is a
`ValueError`); it does not silently resolve to the zero count the
claim asserts. -/
theorem resolveCount_max_unsafe_raises :
    Generator.resolveCount CountCfg.maxSentinel 5 = Except.error () ∧
    Generator.resolveCount CountCfg.maxSentinel 5 ≠ Except.ok 0 := by
  decide

/-- Claim C7 (amended): when the configured count is the `"max"`
sentinel and `max_len > 4`, the exhaustive branch is not taken;
instead `Generator.__init__` raises (`int("max")` fails), so no
generation happens at all. -/
theorem resolveCount_max_unsafe (m : Nat) (h : 4 < m) :
    Generator.resolveCount CountCfg.maxSentinel m = Except.error () := by
  simp [Generator.resolveCount, Nat.not_le.mpr h]

/-- Concrete instance of `resolveCount_max_unsafe` at `max_len = 5`. -/
theorem resolveCount_max_unsafe_witness :
    4 < 5 ∧ Generator.resolveCount CountCfg.maxSentinel 5 = Except.error () :=
  ⟨by decide, resolveCount_max_unsafe 5 (by decide)⟩

/-- Claim C10: when the shutdown flag becomes set at the check before
attempt `k + 1` (all earlier attempts having failed) and the retry
budget is not yet exhausted, `fetch` returns the empty string without
raising, and `check` completes with a `TAKEN` result for the
username. -/
theorem check_under_shutdown_is_taken (retries k : Nat) (delay : ℚ)
    (shutdown : Nat → Bool) (get : Nat → Option String)
    (pageOf : String → Page) (u : String)
    (hk : k < retries) (hsk : shutdown k = true)
    (hsb : ∀ i, i < k → shutdown i = false)
    (hg : ∀ a, a ≤ k → get a = none)
    (hp : pageOf "" = ⟨none, none⟩) :
    (Checker.fetch retries delay shutdown get).result = Except.ok "" ∧
    Checker.check retries delay shutdown get pageOf u =
      Except.ok ⟨u, Status.TAKEN⟩ := by
  have hres : (Checker.fetch retries delay shutdown get).result = Except.ok "" := by
    have h := fetchGo_shutdown_cut retries delay shutdown get k 0 (by omega)
      (by simpa using hsk) (fun i _ h2 => hsb i (by omega)) (fun a ha => hg a (by omega))
    simpa [Checker.fetch] using h
  refine ⟨hres, ?_⟩
  simp only [Checker.check, hres, hp]
  rfl

/-- Concrete instance of `check_under_shutdown_is_taken`: shutdown
already set before the first attempt. -/
theorem check_under_shutdown_is_taken_witness :
    Checker.check 3 1 (fun _ => true) (fun _ => none) (fun _ => ⟨none, none⟩) "x" =
      Except.ok ⟨"x", Status.TAKEN⟩ :=
  (check_under_shutdown_is_taken 3 0 1 (fun _ => true) (fun _ => none)
    (fun _ => ⟨none, none⟩) "x" (by decide) rfl (fun i hi => absurd hi (Nat.not_lt_zero i))
    (fun a _ => rfl) rfl).2

/-! ## Claims about the proxy pool -/

lemma loadLines_eq_filter :
    ∀ lines : List String,
      ProxyPool.loadLines lines = (lines.map pyStrip).filter ProxyPool.keepLine := by
  intro lines
  induction lines with
  | nil => rfl
  | cons ln rest ih =>
    cases h1 : strIsEmpty (pyStrip ln) <;>
      cases h2 : startsWithHash (pyStrip ln) <;>
        cases h3 : ProxyPool.regexMatch (pyStrip ln) <;>
          simp [ProxyPool.loadLines, ProxyPool.keepLine, h1, h2, h3, ih,
            List.filter_cons]

/-- Claim C9: loading retains exactly the stripped lines that are
non-blank, do not start with `#`, and match the proxy pattern; all
other lines are dropped without error; `count()` equals the number of
retained lines; and a missing source file leaves the pool empty. -/
theorem proxy_load_retains_matching_lines (lines : List String) :
    ProxyPool.loadSrc (some lines) = (lines.map pyStrip).filter ProxyPool.keepLine ∧
    (∀ l ∈ ProxyPool.loadSrc (some lines),
      strIsEmpty l = false ∧ startsWithHash l = false ∧ ProxyPool.regexMatch l = true) ∧
    (ProxyPool.mk' (some lines)).count = (lines.map pyStrip).countP ProxyPool.keepLine ∧
    ProxyPool.mk' none = ⟨[], 0⟩ := by
  have he := loadLines_eq_filter lines
  refine ⟨he, ?_, ?_, rfl⟩
  · intro l hl
    rw [show ProxyPool.loadSrc (some lines) = ProxyPool.loadLines lines from rfl, he] at hl
    have hk : ProxyPool.keepLine l = true := List.of_mem_filter hl
    simp only [ProxyPool.keepLine, Bool.and_eq_true, Bool.not_eq_true'] at hk
    exact ⟨hk.1.1, hk.1.2, hk.2⟩
  · rw [show (ProxyPool.mk' (some lines)).count = (ProxyPool.loadLines lines).length from rfl,
      he, List.countP_eq_length_filter]

/-- Concrete instance of `proxy_load_retains_matching_lines` on a mixed
source: a bare `host:port` line and a full URL line are kept, a
comment, a blank line and a pattern-violating line are dropped. -/
theorem proxy_load_retains_matching_lines_witness :
    ProxyPool.loadSrc
        (some ["1.2.3.4:8080", "  # comment", "", "bad line", " http://u:p@h:99 "]) =
      ((["1.2.3.4:8080", "  # comment", "", "bad line", " http://u:p@h:99 "].map
          pyStrip).filter ProxyPool.keepLine) ∧
    ProxyPool.regexMatch "1.2.3.4:8080" = true :=
  ⟨(proxy_load_retains_matching_lines _).1,
    ((proxy_load_retains_matching_lines
        ["1.2.3.4:8080", "  # comment", "", "bad line", " http://u:p@h:99 "]).2.1
      "1.2.3.4:8080"
      (by rw [show ProxyPool.loadSrc
            (some ["1.2.3.4:8080", "  # comment", "", "bad line", " http://u:p@h:99 "]) =
            ["1.2.3.4:8080", "http://u:p@h:99"] from rfl]
          exact List.mem_cons_self _ _)).2.2⟩

/-- Claim C8 counterexample: on a fresh two-entry pool the first
`next()` call returns the second loaded entry, not the first: the
cursor is advanced before the entry is read. -/
theorem proxy_next_skips_first_entry :
    (ProxyPool.next ⟨["a:1", "b:2"], 0⟩).1 = some ("http://b:2", "http://b:2") ∧
    ¬(ProxyPool.next ⟨["a:1", "b:2"], 0⟩).1 = some ("http://a:1", "http://a:1") := by
  decide

lemma nextN_spec (raw : List String) (hne : raw.length ≠ 0) :
    ∀ m idx0, idx0 < raw.length →
      ProxyPool.nextN ⟨raw, idx0⟩ m =
        ((List.range m).map fun i =>
            some (ProxyPool.fmt (raw.getD ((idx0 + i + 1) % raw.length) "")),
          ⟨raw, (idx0 + m) % raw.length⟩) := by
  intro m
  induction m with
  | zero =>
    intro idx0 h0
    simp [ProxyPool.nextN, Nat.mod_eq_of_lt h0]
  | succ m ihm =>
    intro idx0 h0
    have hlt : (idx0 + 1) % raw.length < raw.length :=
      Nat.mod_lt _ (Nat.pos_of_ne_zero hne)
    have hnext : ProxyPool.next ⟨raw, idx0⟩ =
        (some (ProxyPool.fmt (raw.getD ((idx0 + 1) % raw.length) "")),
          ⟨raw, (idx0 + 1) % raw.length⟩) := by
      simp [ProxyPool.next, hne, List.getElem?_eq_getElem hlt]
    simp only [ProxyPool.nextN, hnext, ihm ((idx0 + 1) % raw.length) hlt,
      Prod.mk.injEq]
    constructor
    · rw [List.range_succ_eq_map, List.map_cons, List.map_map]
      refine List.cons_eq_cons.mpr ⟨by norm_num, ?_⟩
      apply List.map_congr_left
      intro i _
      have hidx : ((idx0 + 1) % raw.length + i + 1) % raw.length =
          (idx0 + (i + 1) + 1) % raw.length := by
        rw [Nat.add_assoc, Nat.mod_add_mod]
        congr 1
        omega
      simp only [Function.comp_apply, hidx, Nat.succ_eq_add_one]
    · simp only [ProxyPool.mk.injEq, true_and]
      rw [Nat.mod_add_mod]
      congr 1
      omega

/-- Claim C8 (amended): `next()` on a non-empty pool first advances the
rotation cursor by one modulo the pool size and then returns the
formatted entry at the new cursor, so `m` successive calls from cursor
position `idx0 < n` return the entries at indices
`(idx0 + i + 1) % n` for `i = 0, …, m - 1` — every block of `n`
successive calls visits each entry exactly once, in load order,
starting from the entry after the cursor (the second loaded entry on a
fresh pool) — and `next()` on an empty pool returns `none`. -/
theorem proxy_next_rotation (raw : List String) (idx0 m : Nat) :
    (raw = [] → ProxyPool.next ⟨raw, idx0⟩ = (none, ⟨raw, idx0⟩)) ∧
    (raw ≠ [] → idx0 < raw.length →
      (ProxyPool.nextN ⟨raw, idx0⟩ m).1 =
        (List.range m).map (fun i =>
          some (ProxyPool.fmt (raw.getD ((idx0 + i + 1) % raw.length) ""))) ∧
      (ProxyPool.nextN ⟨raw, idx0⟩ m).2 = ⟨raw, (idx0 + m) % raw.length⟩) := by
  constructor
  · intro h
    subst h
    rfl
  · intro hne hlt
    have hlen : raw.length ≠ 0 := fun h0 => hne (List.eq_nil_of_length_eq_zero h0)
    have h := nextN_spec raw hlen m idx0 hlt
    rw [h]
    exact ⟨rfl, rfl⟩

/-- Concrete instance of `proxy_next_rotation`: four calls on a fresh
three-entry pool. -/
theorem proxy_next_rotation_witness :
    (ProxyPool.nextN ⟨["a:1", "b:2", "c:3"], 0⟩ 4).1 =
      (List.range 4).map (fun i =>
        some (ProxyPool.fmt
          (["a:1", "b:2", "c:3"].getD
            ((0 + i + 1) % (["a:1", "b:2", "c:3"] : List String).length) ""))) :=
  ((proxy_next_rotation ["a:1", "b:2", "c:3"] 0 4).2 (by decide) (by decide)).1

/-! ## Claims about the candidate generator -/

lemma mem_flatMapL {α β : Type} (f : α → List β) (b : β) :
    ∀ xs : List α, (b ∈ flatMapL xs f ↔ ∃ a ∈ xs, b ∈ f a) := by
  intro xs
  induction xs with
  | nil => simp [flatMapL]
  | cons a as ih => simp [flatMapL, ih]

lemma length_flatMapL {α β : Type} (f : α → List β) :
    ∀ xs : List α, (flatMapL xs f).length = (xs.map fun a => (f a).length).sum := by
  intro xs
  induction xs with
  | nil => rfl
  | cons a as ih => simp [flatMapL, ih]

lemma pairwise_flatMapL {α β : Type} {R : β → β → Prop} (f : α → List β) :
    ∀ xs : List α, (∀ a ∈ xs, (f a).Pairwise R) →
      xs.Pairwise (fun a b => ∀ x ∈ f a, ∀ y ∈ f b, R x y) →
      (flatMapL xs f).Pairwise R := by
  intro xs
  induction xs with
  | nil => intro _ _; exact List.Pairwise.nil
  | cons a as ih =>
    intro h1 h2
    rw [show flatMapL (a :: as) f = f a ++ flatMapL as f from rfl, List.pairwise_append]
    obtain ⟨hhead, htail⟩ := List.pairwise_cons.mp h2
    refine ⟨h1 a (List.mem_cons_self _ _),
      ih (fun b hb => h1 b (List.mem_cons_of_mem _ hb)) htail, ?_⟩
    intro x hx y hy
    obtain ⟨b, hb, hyb⟩ := (mem_flatMapL f y as).mp hy
    exact hhead b hb x hx y hyb

lemma sum_map_const_len {α : Type} (xs : List α) (k : Nat) :
    (xs.map fun _ => k).sum = xs.length * k := by
  induction xs with
  | nil => simp
  | cons a as ih =>
    simp only [List.map_cons, List.sum_cons, ih, List.length_cons]
    ring

lemma tuples_length (cs : List Char) : ∀ n, (tuples cs n).length = cs.length ^ n := by
  intro n
  induction n with
  | zero => rfl
  | succ n ih =>
    rw [show tuples cs (n + 1) = flatMapL cs fun c => (tuples cs n).map fun t => c :: t
        from rfl, length_flatMapL]
    simp only [List.length_map, ih]
    rw [sum_map_const_len, pow_succ, Nat.mul_comm]

lemma mem_tuples (cs : List Char) :
    ∀ n t, t ∈ tuples cs n ↔ t.length = n ∧ ∀ c ∈ t, c ∈ cs := by
  intro n
  induction n with
  | zero =>
    intro t
    constructor
    · intro h
      simp only [tuples, List.mem_singleton] at h
      subst h
      simp
    · rintro ⟨hl, _⟩
      simp [tuples, List.length_eq_zero.mp hl]
  | succ n ih =>
    intro t
    rw [show tuples cs (n + 1) = flatMapL cs fun c => (tuples cs n).map fun t => c :: t
        from rfl, mem_flatMapL]
    constructor
    · rintro ⟨c, hc, ht⟩
      rw [List.mem_map] at ht
      obtain ⟨t', ht', rfl⟩ := ht
      obtain ⟨hl, hcs⟩ := (ih t').mp ht'
      refine ⟨by simp [hl], ?_⟩
      intro d hd
      rcases List.mem_cons.mp hd with rfl | hd
      · exact hc
      · exact hcs d hd
    · rintro ⟨hl, hcs⟩
      cases t with
      | nil => simp at hl
      | cons c t' =>
        refine ⟨c, hcs c (List.mem_cons_self _ _), ?_⟩
        rw [List.mem_map]
        exact ⟨t', (ih t').mpr ⟨by simpa using hl,
          fun d hd => hcs d (List.mem_cons_of_mem _ hd)⟩, rfl⟩

/-- Strict precedence of two characters in the charset (position in the
charset string), the per-character order underlying `itertools.product`
enumeration order. -/
def idxLt (cs : List Char) (a b : Char) : Prop := cs.indexOf a < cs.indexOf b

instance (cs : List Char) (a b : Char) : Decidable (idxLt cs a b) :=
  inferInstanceAs (Decidable (cs.indexOf a < cs.indexOf b))

/-- The enumeration order of `Generator._all` on character tuples:
shorter tuples first, and tuples of equal length in lexicographic order
with characters compared by charset position. -/
def GenOrder (cs : List Char) (s t : List Char) : Prop :=
  s.length < t.length ∨ (s.length = t.length ∧ List.Lex (idxLt cs) s t)

lemma lex_irrefl_of {α : Type} (r : α → α → Prop) (hr : ∀ a, ¬r a a) :
    ∀ l : List α, ¬List.Lex r l l := by
  intro l
  induction l with
  | nil => intro h; cases h
  | cons a as ih =>
    intro h
    cases h with
    | cons h' => exact ih h'
    | rel h' => exact hr a h'

lemma tuples_pairwise (cs : List Char) {r : Char → Char → Prop}
    (hcs : cs.Pairwise r) : ∀ n, (tuples cs n).Pairwise (List.Lex r) := by
  intro n
  induction n with
  | zero => simp [tuples]
  | succ n ih =>
    rw [show tuples cs (n + 1) = flatMapL cs fun c => (tuples cs n).map fun t => c :: t
        from rfl]
    apply pairwise_flatMapL
    · intro c _
      exact List.Pairwise.map _ (fun a b h => List.Lex.cons h) ih
    · refine hcs.imp ?_
      intro c1 c2 h12 x hx y hy
      obtain ⟨t1, _, rfl⟩ := List.mem_map.mp hx
      obtain ⟨t2, _, rfl⟩ := List.mem_map.mp hy
      exact List.Lex.rel h12

lemma lenRange_pairwise (minLen maxLen : Nat) :
    (lenRange minLen maxLen).Pairwise (· < ·) :=
  List.pairwise_lt_range' minLen (maxLen + 1 - minLen)

lemma mem_lenRange (minLen maxLen L : Nat) :
    L ∈ lenRange minLen maxLen ↔ minLen ≤ L ∧ L ≤ maxLen := by
  rw [lenRange, List.mem_range'_1]
  omega

lemma genAllTuples_pairwise (cs : List Char) (hcs : cs.Pairwise (idxLt cs))
    (minLen maxLen : Nat) :
    (flatMapL (lenRange minLen maxLen) (tuples cs)).Pairwise (GenOrder cs) := by
  apply pairwise_flatMapL
  · intro L _
    refine List.Pairwise.imp_of_mem ?_ (tuples_pairwise cs hcs L)
    intro x y hx hy hlex
    exact Or.inr ⟨by rw [((mem_tuples cs L x).mp hx).1, ((mem_tuples cs L y).mp hy).1],
      hlex⟩
  · refine (lenRange_pairwise minLen maxLen).imp ?_
    intro L1 L2 h12 x hx y hy
    exact Or.inl (by
      rw [((mem_tuples cs L1 x).mp hx).1, ((mem_tuples cs L2 y).mp hy).1]
      exact h12)

lemma genAllTuples_nodup (cs : List Char) (hcs : cs.Pairwise (idxLt cs))
    (minLen maxLen : Nat) :
    (flatMapL (lenRange minLen maxLen) (tuples cs)).Nodup := by
  refine (genAllTuples_pairwise cs hcs minLen maxLen).imp ?_
  intro s t hord
  rintro rfl
  rcases hord with h | ⟨_, hlex⟩
  · exact lt_irrefl _ h
  · exact lex_irrefl_of (idxLt cs) (fun a => lt_irrefl _) s hlex

lemma sum_map_range' (f : Nat → Nat) :
    ∀ k a, ((List.range' a k).map f).sum = ∑ L ∈ Finset.Ico a (a + k), f L := by
  intro k
  induction k with
  | zero => intro a; simp
  | succ k ih =>
    intro a
    rw [show List.range' a (k + 1) = a :: List.range' (a + 1) k from rfl,
      List.map_cons, List.sum_cons, ih (a + 1),
      Finset.sum_eq_sum_Ico_succ_bot (by omega : a < a + (k + 1)) f]
    have hb : a + 1 + k = a + (k + 1) := by omega
    rw [hb]

lemma genAllTuples_length (cs : List Char) (minLen maxLen : Nat) :
    (flatMapL (lenRange minLen maxLen) (tuples cs)).length =
      ∑ L ∈ Finset.Icc minLen maxLen, cs.length ^ L := by
  rw [length_flatMapL,
    List.map_congr_left fun L _ => tuples_length cs L,
    lenRange, sum_map_range' (fun L => cs.length ^ L) (maxLen + 1 - minLen) minLen]
  by_cases h : minLen ≤ maxLen
  · have hb : minLen + (maxLen + 1 - minLen) = maxLen + 1 := by omega
    rw [hb, Nat.Ico_succ_right]
  · have hb : minLen + (maxLen + 1 - minLen) = minLen := by omega
    rw [hb]
    rw [Finset.Ico_self, Finset.Icc_eq_empty (by omega)]

lemma charset_pairwise (digits : Bool) :
    (charset digits).Pairwise (idxLt (charset digits)) := by
  cases digits <;> decide

/-- Claim C5: in exhaustive mode (count resolved to 0), `generate()`
yields exactly `Σ_{L=min}^{max} |charset|^L` strings, each of length in
`[min_len, max_len]` and made only of charset characters, with no
duplicates, ordered by increasing length and, within each length, in
charset-lexicographic product order. -/
theorem generator_exhaustive_spec (digits : Bool) (minLen maxLen : Nat)
    (randint : Nat → Nat) (pick : Nat → Nat → Char) (_hle : minLen ≤ maxLen) :
    Generator.generate (charset digits) minLen maxLen randint pick 0 =
      Generator.allStrings (charset digits) minLen maxLen ∧
    (Generator.allStrings (charset digits) minLen maxLen).length =
      ∑ L ∈ Finset.Icc minLen maxLen, (charset digits).length ^ L ∧
    (∀ s ∈ Generator.allStrings (charset digits) minLen maxLen,
      (minLen ≤ s.length ∧ s.length ≤ maxLen) ∧ ∀ c ∈ s.data, c ∈ charset digits) ∧
    (Generator.allStrings (charset digits) minLen maxLen).Nodup ∧
    (Generator.allStrings (charset digits) minLen maxLen).Pairwise
      (fun s t => GenOrder (charset digits) s.data t.data) := by
  refine ⟨rfl, ?_, ?_, ?_, ?_⟩
  · rw [Generator.allStrings, List.length_map, genAllTuples_length]
  · intro s hs
    rw [Generator.allStrings, List.mem_map] at hs
    obtain ⟨t, ht, rfl⟩ := hs
    obtain ⟨L, hL, htL⟩ := (mem_flatMapL (tuples (charset digits)) t _).mp ht
    obtain ⟨hlen, hchars⟩ := (mem_tuples _ L t).mp htL
    obtain ⟨h1, h2⟩ := (mem_lenRange minLen maxLen L).mp hL
    have hslen : (String.mk t).length = t.length := rfl
    exact ⟨⟨by rw [hslen, hlen]; exact h1, by rw [hslen, hlen]; exact h2⟩,
      fun c hc => hchars c hc⟩
  · rw [Generator.allStrings]
    exact (genAllTuples_nodup (charset digits) (charset_pairwise digits) minLen
      maxLen).map (fun a b h => congrArg String.data h)
  · rw [Generator.allStrings, List.pairwise_map]
    exact genAllTuples_pairwise (charset digits) (charset_pairwise digits) minLen maxLen

/-- Concrete instance of `generator_exhaustive_spec` for the
letters-only charset over lengths 1 to 2. -/
theorem generator_exhaustive_spec_witness :
    1 ≤ 2 ∧
    (Generator.allStrings (charset false) 1 2).length =
      ∑ L ∈ Finset.Icc 1 2, (charset false).length ^ L ∧
    (Generator.allStrings (charset false) 1 2).Nodup :=
  ⟨by decide,
    (generator_exhaustive_spec false 1 2 (fun _ => 1) (fun _ _ => 'a') (by decide)).2.1,
    (generator_exhaustive_spec false 1 2 (fun _ => 1) (fun _ _ => 'a')
      (by decide)).2.2.2.1⟩

/-- Claim C6 counterexample: with the requested count resolved to 0 the
generator is not in sampling mode: `generate()` takes the exhaustive
branch and yields 36 strings (for charset with digits, lengths 1..1),
not the empty list the claim asserts for `n = 0`. -/
theorem generate_zero_count_not_sampling :
    Generator.generate (charset true) 1 1 (fun _ => 1) (fun _ _ => 'a') 0 ≠ [] ∧
    (Generator.generate (charset true) 1 1 (fun _ => 1) (fun _ _ => 'a') 0).length
      = 36 := by
  constructor
  · decide
  · decide

/-- Claim C6 (amended): for sampling mode, i.e. requested count
`n ≥ 1`, `generate()` yields exactly `n` strings, each of length in
`[min_len, max_len]` and composed only of charset characters; a count
of 0 instead selects the exhaustive branch (only the internal `_random`
helper itself yields an empty list at 0). -/
theorem generate_sampling_count (digits : Bool) (minLen maxLen count : Nat)
    (randint : Nat → Nat) (pick : Nat → Nat → Char)
    (hc : count ≠ 0)
    (hr : ∀ i, minLen ≤ randint i ∧ randint i ≤ maxLen)
    (hp : ∀ i j, pick i j ∈ charset digits) :
    (Generator.generate (charset digits) minLen maxLen randint pick count).length
      = count ∧
    Generator.randomStrings randint pick 0 = [] ∧
    ∀ s ∈ Generator.generate (charset digits) minLen maxLen randint pick count,
      (minLen ≤ s.length ∧ s.length ≤ maxLen) ∧ ∀ c ∈ s.data, c ∈ charset digits := by
  rw [Generator.generate, if_neg hc]
  refine ⟨by simp [Generator.randomStrings], rfl, ?_⟩
  intro s hs
  rw [Generator.randomStrings, List.mem_map] at hs
  obtain ⟨i, _, rfl⟩ := hs
  have hslen : (String.mk ((List.range (randint i)).map (pick i))).length =
      randint i := by
    rw [show (String.mk ((List.range (randint i)).map (pick i))).length =
        ((List.range (randint i)).map (pick i)).length from rfl]
    simp
  refine ⟨⟨by rw [hslen]; exact (hr i).1, by rw [hslen]; exact (hr i).2⟩, ?_⟩
  intro c hc'
  obtain ⟨j, _, rfl⟩ := List.mem_map.mp hc'
  exact hp i j

/-- Concrete instance of `generate_sampling_count`: three sampled
strings of length 1 over the full charset. -/
theorem generate_sampling_count_witness :
    (3 : Nat) ≠ 0 ∧
    (Generator.generate (charset true) 1 2 (fun _ => 1) (fun _ _ => 'a') 3).length
      = 3 :=
  ⟨by decide,
    (generate_sampling_count true 1 2 3 (fun _ => 1) (fun _ _ => 'a') (by decide)
      (fun _ => show 1 ≤ 1 ∧ 1 ≤ 2 by decide)
      (fun _ _ => show 'a' ∈ charset true by decide)).1⟩
